import Mathlib

/-!
Verification of the Live Multi-Code Aggregator of the EpiCheck repository
(component `MultiQRScanner.tsx`).  The scan callback
(`handleBarCodeScanned`), the flush cycle (the `setInterval` body of the
flush `useEffect`), the validation trigger (`handleValidate`) and the clear
trigger (`handleClearPending`) are embedded as pure functions over an
explicit session state, and the specified properties are proved about them.

Modelling conventions:
* JS `Map` is an association list with in-place value replacement and
  insertion-order append (`jsMapSet` / `jsMapGet`); JS `Set` is a list with
  membership-guarded append (`jsSetAdd`).  All maps/sets in the component
  start empty and are only modified through these operations, so keys stay
  unique exactly as in JS.
* Times are naturals (milliseconds, as produced by `Date.now()`); arithmetic
  comparisons are carried out in `Int` to mirror JS number subtraction.
* The platform `JSON.parse` (an external collaborator of the scan callback)
  is modelled by a total JSON reader returning `Option Json`; exceptions of
  `JSON.parse` correspond to `none`.  JS truthiness (`parsed.email ||
  parsed.Email || data`) is modelled by `jsTruthy`.
-/

namespace Epicheck

/-! ### Configuration constants (`MultiQRScanner.tsx`, lines 48-53) -/

/-- Interval at which the detection buffer is flushed to UI state. -/
def FLUSH_INTERVAL_MS : Nat := 400

/-- Time after which an overlay disappears if not re-detected. -/
def OVERLAY_TTL_MS : Nat := 2000

/-- Minimum time between processing the same QR code data again. -/
def DEDUP_WINDOW_MS : Nat := 300

/-! ### JS collection semantics -/

/-- JS `Map.prototype.set`: replace the value at an existing key in place
(keeping its insertion position), otherwise append the binding. -/
def jsMapSet {α : Type} : List (String × α) → String → α → List (String × α)
  | [], k, v => [(k, v)]
  | (k1, v1) :: m, k, v =>
    if k1 = k then (k, v) :: m else (k1, v1) :: jsMapSet m k v

/-- JS `Map.prototype.get` (`none` for `undefined`). -/
def jsMapGet {α : Type} : List (String × α) → String → Option α
  | [], _ => none
  | (k1, v1) :: m, k => if k1 = k then some v1 else jsMapGet m k

/-- Iterated `Map.prototype.set` over a list of bindings, in order
(`for (const [k, o] of snapshot) merged.set(k, o)`). -/
def jsMapSetAll {α : Type} (m : List (String × α)) (l : List (String × α)) :
    List (String × α) :=
  List.foldl (fun acc kv => jsMapSet acc kv.1 kv.2) m l

/-- JS `Set.prototype.add`: append if not already a member. -/
def jsSetAdd (s : List String) (x : String) : List String :=
  if x ∈ s then s else s ++ [x]

/-! ### JSON values and the platform parser

`handleBarCodeScanned` calls the platform `JSON.parse` on the decoded data
(lines 226-231).  That collaborator is modelled here by a total recursive
reader for the JSON grammar; a thrown `SyntaxError` corresponds to `none`.
Numbers keep their source lexeme, which is all the component ever inspects
(truthiness and string coercion). -/

/-- JSON value produced by the modelled `JSON.parse`. -/
inductive Json where
  | null : Json
  | bool : Bool → Json
  | num : String → Json
  | str : String → Json
  | arr : List Json → Json
  | obj : List (String × Json) → Json

/-- Whitespace accepted between JSON tokens. -/
def isJsonWs (c : Char) : Bool :=
  c == ' ' || c == '\t' || c == '\n' || c == '\r'

/-- Drop leading JSON whitespace. -/
def skipWs : List Char → List Char
  | [] => []
  | c :: cs => if isJsonWs c then skipWs cs else c :: cs

/-- Value of a hexadecimal digit, if any. -/
def hexVal (c : Char) : Option Nat :=
  if '0' ≤ c ∧ c ≤ '9' then some (c.toNat - '0'.toNat)
  else if 'a' ≤ c ∧ c ≤ 'f' then some (c.toNat - 'a'.toNat + 10)
  else if 'A' ≤ c ∧ c ≤ 'F' then some (c.toNat - 'A'.toNat + 10)
  else none

/-- Single-character JSON string escapes. -/
def escChar (e : Char) : Option Char :=
  if e == '"' then some '"'
  else if e == '\\' then some '\\'
  else if e == '/' then some '/'
  else if e == 'b' then some (Char.ofNat 8)
  else if e == 'f' then some (Char.ofNat 12)
  else if e == 'n' then some '\n'
  else if e == 'r' then some '\r'
  else if e == 't' then some '\t'
  else none

/-- Body of a JSON string after the opening quote: returns the decoded
characters and the input remaining after the closing quote. -/
def parseStrAux : Nat → List Char → Option (List Char × List Char)
  | 0, _ => none
  | _, [] => none
  | fuel + 1, c :: cs =>
    if c == '"' then some ([], cs)
    else if c == '\\' then
      match cs with
      | [] => none
      | e :: cs2 =>
        if e == 'u' then
          match cs2 with
          | a :: b :: c3 :: d :: cs3 =>
            match hexVal a, hexVal b, hexVal c3, hexVal d with
            | some ha, some hb, some hc, some hd =>
              (parseStrAux fuel cs3).map
                (fun p =>
                  (Char.ofNat (((ha * 16 + hb) * 16 + hc) * 16 + hd) :: p.1,
                   p.2))
            | _, _, _, _ => none
          | _ => none
        else
          match escChar e with
          | some ec => (parseStrAux fuel cs2).map (fun p => (ec :: p.1, p.2))
          | none => none
    else if c.toNat < 32 then none
    else (parseStrAux fuel cs).map (fun p => (c :: p.1, p.2))

/-- Longest prefix of decimal digits. -/
def takeDigits : List Char → List Char × List Char
  | [] => ([], [])
  | c :: cs =>
    if c.isDigit then
      let p := takeDigits cs
      (c :: p.1, p.2)
    else ([], c :: cs)

/-- Optional fraction part of a JSON number. -/
def parseFrac : List Char → Option (List Char × List Char)
  | '.' :: r =>
    let p := takeDigits r
    if p.1.isEmpty then none else some ('.' :: p.1, p.2)
  | cs => some ([], cs)

/-- Optional exponent part of a JSON number. -/
def parseExp : List Char → Option (List Char × List Char)
  | c :: r =>
    if c == 'e' || c == 'E' then
      let p0 := match r with
        | s :: r2 => if s == '+' || s == '-' then ([s], r2) else ([], r)
        | [] => (([] : List Char), ([] : List Char))
      let p := takeDigits p0.2
      if p.1.isEmpty then none else some (c :: (p0.1 ++ p.1), p.2)
    else some ([], c :: r)
  | [] => some ([], [])

/-- Integer part of a JSON number after an optional sign: `0`, or a nonzero
digit followed by digits (a leading `0` followed by a digit is a syntax
error, as in `JSON.parse`). -/
def parseIntPart : List Char → Option (List Char × List Char)
  | [] => none
  | c :: r =>
    if c == '0' then
      match r with
      | d :: _ => if d.isDigit then none else some (['0'], r)
      | [] => some (['0'], [])
    else if c.isDigit then
      let p := takeDigits r
      some (c :: p.1, p.2)
    else none

/-- JSON number: returns the accepted lexeme and the remaining input. -/
def parseNumber (cs : List Char) : Option (String × List Char) :=
  let p0 : List Char × List Char :=
    match cs with
    | '-' :: r => (['-'], r)
    | _ => ([], cs)
  match parseIntPart p0.2 with
  | some p1 =>
    match parseFrac p1.2 with
    | some p2 =>
      match parseExp p2.2 with
      | some p3 => some (String.mk (p0.1 ++ p1.1 ++ p2.1 ++ p3.1), p3.2)
      | none => none
    | none => none
  | none => none

mutual

/-- JSON value (input must start at a non-whitespace position). -/
def parseValue : Nat → List Char → Option (Json × List Char)
  | 0, _ => none
  | fuel + 1, cs =>
    match cs with
    | '{' :: r =>
      match skipWs r with
      | '}' :: r2 => some (Json.obj [], r2)
      | r2 => (parseFields fuel r2).map (fun p => (Json.obj p.1, p.2))
    | '[' :: r =>
      match skipWs r with
      | ']' :: r2 => some (Json.arr [], r2)
      | r2 => (parseElems fuel r2).map (fun p => (Json.arr p.1, p.2))
    | '"' :: r =>
      (parseStrAux fuel r).map (fun p => (Json.str (String.mk p.1), p.2))
    | 't' :: 'r' :: 'u' :: 'e' :: r => some (Json.bool true, r)
    | 'f' :: 'a' :: 'l' :: 's' :: 'e' :: r => some (Json.bool false, r)
    | 'n' :: 'u' :: 'l' :: 'l' :: r => some (Json.null, r)
    | _ => (parseNumber cs).map (fun p => (Json.num p.1, p.2))

/-- Non-empty member list of a JSON object, up to the closing brace. -/
def parseFields : Nat → List Char → Option (List (String × Json) × List Char)
  | 0, _ => none
  | fuel + 1, cs =>
    match cs with
    | '"' :: r =>
      match parseStrAux fuel r with
      | some pk =>
        match skipWs pk.2 with
        | ':' :: r2 =>
          match parseValue fuel (skipWs r2) with
          | some pv =>
            match skipWs pv.2 with
            | ',' :: r3 =>
              (parseFields fuel (skipWs r3)).map
                (fun p => ((String.mk pk.1, pv.1) :: p.1, p.2))
            | '}' :: r3 => some ([(String.mk pk.1, pv.1)], r3)
            | _ => none
          | none => none
        | _ => none
      | none => none
    | _ => none

/-- Non-empty element list of a JSON array, up to the closing bracket. -/
def parseElems : Nat → List Char → Option (List Json × List Char)
  | 0, _ => none
  | fuel + 1, cs =>
    match parseValue fuel cs with
    | some pv =>
      match skipWs pv.2 with
      | ',' :: r => (parseElems fuel (skipWs r)).map (fun p => (pv.1 :: p.1, p.2))
      | ']' :: r => some ([pv.1], r)
      | _ => none
    | none => none

end

/-- Model of the platform `JSON.parse`: `none` where `JSON.parse` throws.
The fuel `2 * length + 8` dominates the recursion depth, every recursive
call having consumed at least one input character. -/
def jsonParse (s : String) : Option Json :=
  match parseValue (2 * s.length + 8) (skipWs s.data) with
  | some (v, rest) => if (skipWs rest).isEmpty then some v else none
  | none => none

/-! ### JS truthiness and field access, for `parsed.email || parsed.Email || data` -/

/-- Truthiness of a number from its lexeme: falsy exactly when the mantissa
has no nonzero digit (`0`, `-0.00`, `0e9`, ...). -/
def numLexTruthy (lex : String) : Bool :=
  (lex.data.takeWhile (fun c => !(c == 'e' || c == 'E'))).any
    (fun c => c.isDigit && !(c == '0'))

/-- JS truthiness of a parsed JSON value. -/
def jsTruthy : Json → Bool
  | Json.null => false
  | Json.bool b => b
  | Json.num lex => numLexTruthy lex
  | Json.str s => !(s == "")
  | Json.arr _ => true
  | Json.obj _ => true

mutual

/-- JS string coercion of a parsed JSON value, used when a truthy non-string
field is carried around as the payload.  (Inside arrays, JS renders `null`
as the empty string; that sub-corner is not distinguished here.) -/
def jsDisplay : Json → String
  | Json.null => "null"
  | Json.bool true => "true"
  | Json.bool false => "false"
  | Json.num lex => lex
  | Json.str s => s
  | Json.arr xs => jsDisplayList xs
  | Json.obj _ => "[object Object]"

/-- Comma-joined JS string coercion of array elements. -/
def jsDisplayList : List Json → String
  | [] => ""
  | [x] => jsDisplay x
  | x :: y :: xs => jsDisplay x ++ "," ++ jsDisplayList (y :: xs)

end

/-- Property access `parsed.name` on a parse result: defined only on
objects; `JSON.parse` keeps the last of duplicate keys. -/
def jsGetField : Json → String → Option Json
  | Json.obj fields, name => (fields.reverse.find? (fun kv => kv.1 == name)).map (fun kv => kv.2)
  | _, _ => none

/-- The field if present and truthy, as consumed by the `||` chain. -/
def jsTruthyField (parsed : Json) (name : String) : Option Json :=
  match jsGetField parsed name with
  | some v => if jsTruthy v then some v else none
  | none => none

/-- Payload extraction of `handleBarCodeScanned` (lines 224-231):
`try { parsed = JSON.parse(data); email = parsed.email || parsed.Email ||
data } catch { email = data }`.  A parse failure, a non-object parse, and a
falsy (or absent) `email`/`Email` field all fall back to the raw data. -/
def extractEmail (data : String) : String :=
  match jsonParse data with
  | none => data
  | some parsed =>
    match jsTruthyField parsed "email" with
    | some v => jsDisplay v
    | none =>
      match jsTruthyField parsed "Email" with
      | some w => jsDisplay w
      | none => data

/-! ### Data model (`MultiQRScanner.tsx`, lines 64-123) -/

/-- Bounding region of a detection, in view-space units (`QROverlay.bounds`).
Coordinate values are carried opaquely; `Int` stands in for the JS numbers,
which the component never does arithmetic on. -/
structure Bounds where
  x : Int
  y : Int
  width : Int
  height : Int
deriving DecidableEq

/-- `QROverlay` (lines 64-70). -/
structure QROverlay where
  id : String
  text : String
  bounds : Bounds
  lastSeen : Nat
  processed : Bool
deriving DecidableEq

/-- Decoded-code event delivered by the camera collaborator
(`BarcodeScanningResult`): the decoded data and the optional bounding
fields read as `result.bounds?.origin?.x ?? 0` etc. (lines 243-246); each
coordinate is optional independently, which subsumes a missing `bounds` or
`origin`/`size`. -/
structure ScanResult where
  data : String
  boundsX : Option Int
  boundsY : Option Int
  boundsW : Option Int
  boundsH : Option Int
deriving DecidableEq

/-- Bounds computation of the scan callback (lines 242-253): missing fields
default to `0`. -/
def scanBounds (r : ScanResult) : Bounds :=
  { x := r.boundsX.getD 0
    y := r.boundsY.getD 0
    width := r.boundsW.getD 0
    height := r.boundsH.getD 0 }

/-- Session state of the aggregator: the React state cells (`overlays`,
`pendingEmails`, `validatedEmails`, `isValidating`), the refs written by
the scan callback (`detectionBuffer`, `pendingBuffer`, `lastSeenMap`), the
`isActive` prop, and a log of the `onValidate` submission calls.  The
`scanStateRef` mirror of lines 106-116 is the identity in this
single-threaded model: the callback reads the current values directly. -/
structure ScannerState where
  overlays : List QROverlay
  pendingEmails : List String
  validatedEmails : List String
  isValidating : Bool
  detectionBuffer : List (String × QROverlay)
  pendingBuffer : List String
  lastSeenMap : List (String × Nat)
  isActive : Bool
  submitted : List (List String)
deriving DecidableEq

/-- Initial state: all collections empty, no validation in flight, camera
active. -/
def initState : ScannerState :=
  { overlays := []
    pendingEmails := []
    validatedEmails := []
    isValidating := false
    detectionBuffer := []
    pendingBuffer := []
    lastSeenMap := []
    isActive := true
    submitted := [] }

/-! ### Operations -/

/-- Dedup check of the scan callback (lines 236-237):
`const prev = lastSeenMap.current.get(email); if (prev && now - prev <
DEDUP_WINDOW_MS) return;`.  Note the JS truthiness of `prev`: a recorded
timestamp of `0` is treated like an absent entry. -/
def dedupSuppressed (m : List (String × Nat)) (email : String) (now : Nat) : Bool :=
  match jsMapGet m email with
  | some prev => decide (prev ≠ 0) && decide ((now : Int) - (prev : Int) < (DEDUP_WINDOW_MS : Int))
  | none => false

/-- Scan callback `handleBarCodeScanned` (lines 218-270), invoked once per
camera frame with a decode, at time `now` (`Date.now()`). -/
def handleBarCodeScanned (s : ScannerState) (r : ScanResult) (now : Nat) : ScannerState :=
  if !s.isActive || s.isValidating then s
  else
    let email := extractEmail r.data
    if dedupSuppressed s.lastSeenMap email now then s
    else
      let isAlreadyValidated := decide (email ∈ s.validatedEmails)
      let s1 :=
        { s with
          lastSeenMap := jsMapSet s.lastSeenMap email now
          detectionBuffer :=
            jsMapSet s.detectionBuffer email
              { id := email
                text := email
                bounds := scanBounds r
                lastSeen := now
                processed := isAlreadyValidated } }
      if !isAlreadyValidated && !(decide (email ∈ s.pendingEmails)) then
        { s1 with pendingBuffer := jsSetAdd s1.pendingBuffer email }
      else s1

/-- One tick of the flush interval (lines 275-327) at time `now`. -/
def flushTick (s : ScannerState) (now : Nat) : ScannerState :=
  let cutoff : Int := (now : Int) - (OVERLAY_TTL_MS : Int)
  -- 1. Flush detection buffer → overlays state (merge, new over kept-fresh
  --    old), or, with an empty buffer, prune stale overlays only.
  let kept := s.overlays.filter (fun o => cutoff < (o.lastSeen : Int))
  let overlays' :=
    if s.detectionBuffer.isEmpty then kept
    else
      (jsMapSetAll (jsMapSetAll [] (kept.map (fun o => (o.id, o))))
          s.detectionBuffer).map (fun kv => kv.2)
  let detectionBuffer' :=
    if s.detectionBuffer.isEmpty then s.detectionBuffer else []
  -- 2. Flush pending buffer → pending set state.
  let pendingEmails' :=
    if s.pendingBuffer.isEmpty then s.pendingEmails
    else List.foldl jsSetAdd s.pendingEmails s.pendingBuffer
  let pendingBuffer' :=
    if s.pendingBuffer.isEmpty then s.pendingBuffer else []
  -- 3. Clean up stale dedup entries once the map exceeds 50 entries.
  let lastSeenMap' :=
    if 50 < s.lastSeenMap.length then
      s.lastSeenMap.filter (fun kt => !(decide ((kt.2 : Int) < cutoff)))
    else s.lastSeenMap
  { s with
    overlays := overlays'
    detectionBuffer := detectionBuffer'
    pendingEmails := pendingEmails'
    pendingBuffer := pendingBuffer'
    lastSeenMap := lastSeenMap' }

/-- Validation trigger `handleValidate` (lines 332-360): no-op when the
pending set is empty or a validation is in flight; otherwise snapshot the
pending set, mark it validated, mark matching overlays processed, clear the
pending set and hand the snapshot to `onValidate` (logged in `submitted`).
The in-flight flag is raised and lowered within the same invocation, so it
ends `false`. -/
def handleValidate (s : ScannerState) : ScannerState :=
  if s.pendingEmails.isEmpty || s.isValidating then s
  else
    { s with
      validatedEmails := List.foldl jsSetAdd s.validatedEmails s.pendingEmails
      overlays :=
        s.overlays.map
          (fun o => { o with processed := decide (o.id ∈ s.pendingEmails) || o.processed })
      pendingEmails := []
      isValidating := false
      submitted := s.submitted ++ [s.pendingEmails] }

/-- Clear trigger `handleClearPending` (lines 362-364). -/
def handleClearPending (s : ScannerState) : ScannerState :=
  { s with pendingEmails := [] }

/-- Render-time overlay filter of `overlayElements` (lines 371-375):
overlays with zero width or zero height are skipped, producing no element. -/
def renderedOverlays (overlays : List QROverlay) : List QROverlay :=
  overlays.filter (fun o => !(decide (o.bounds.width = 0) || decide (o.bounds.height = 0)))

/-! ### Event-step semantics of a session -/

/-- The four sources of state change during a scanning session. -/
inductive Event where
  | scan (r : ScanResult) (now : Nat)
  | flush (now : Nat)
  | validate
  | clear
deriving DecidableEq

/-- One event step. -/
def step : Event → ScannerState → ScannerState
  | Event.scan r now, s => handleBarCodeScanned s r now
  | Event.flush now, s => flushTick s now
  | Event.validate, s => handleValidate s
  | Event.clear, s => handleClearPending s

/-- Run a sequence of events from a given state. -/
def runFrom (s : ScannerState) : List Event → ScannerState
  | [] => s
  | e :: es => runFrom (step e s) es

/-- Run a sequence of events from the initial empty state. -/
def run (es : List Event) : ScannerState :=
  runFrom initState es

/-! ### Concrete data for the example instantiations -/

/-- A decode of `a@x.eu` (plain payload, not JSON) with nonzero bounds. -/
def rAx : ScanResult := ⟨"a@x.eu", some 1, some 2, some 3, some 4⟩

/-- A decode of `b@x.eu`. -/
def rBx : ScanResult := ⟨"b@x.eu", some 5, some 6, some 7, some 8⟩

/-- A decode of `x@epitech.eu` at horizontal position `x`. -/
def rEp (x : Int) : ScanResult := ⟨"x@epitech.eu", some x, some x, some 5, some 5⟩

/-- A decode of the plain payload `p` at horizontal position `x`. -/
def rP (x : Int) : ScanResult := ⟨"p", some x, some 0, some 4, some 4⟩

/-- An overlay with zero-sized bounds. -/
def oZero : QROverlay := ⟨"z", "z", ⟨0, 0, 0, 0⟩, 50, false⟩

/-- Whether the decoded data parses as structured data containing the given
field (of any value). -/
def parsedFieldIsPresent (d name : String) : Bool :=
  match jsonParse d with
  | some j => (jsGetField j name).isSome
  | none => false

/-- Two payloads pending, one overlay matching one of them. -/
def sValidateDemo : ScannerState :=
  { initState with
    pendingEmails := ["a@x.eu", "b@x.eu"]
    overlays := [⟨"a@x.eu", "a@x.eu", ⟨1, 2, 3, 4⟩, 1000, false⟩] }

/-- A dedup entry for `p` recorded at t = 1000. -/
def sDedupDemo : ScannerState := { initState with lastSeenMap := [("p", 1000)] }

/-- `a@x.eu` already validated. -/
def sValidatedDemo : ScannerState := { initState with validatedEmails := ["a@x.eu"] }

/-- `a@x.eu` pending, its dedup entry recorded at t = 1000. -/
def sClearDemo : ScannerState :=
  { initState with pendingEmails := ["a@x.eu"], lastSeenMap := [("a@x.eu", 1000)] }

/-- One fresh and one stale overlay, both buffers empty. -/
def sFlushDemo : ScannerState :=
  { initState with
    overlays := [⟨"f@x.eu", "f@x.eu", ⟨1, 1, 2, 2⟩, 4000, false⟩,
                 ⟨"g@x.eu", "g@x.eu", ⟨9, 9, 2, 2⟩, 100, false⟩] }

/-- A payload sitting in the pending buffer, another already pending. -/
def sBufferDemo : ScannerState :=
  { initState with pendingBuffer := ["a@x.eu"], pendingEmails := ["old@x.eu"] }

/-- Session invariant of claim C2: no payload is both validated and pending;
the pending buffer never holds a validated or an already-pending payload. -/
def Inv (s : ScannerState) : Prop :=
  (∀ e ∈ s.validatedEmails, e ∉ s.pendingEmails) ∧
  (∀ e ∈ s.validatedEmails, e ∉ s.pendingBuffer) ∧
  (∀ e ∈ s.pendingEmails, e ∉ s.pendingBuffer)

/-! ### Lemmas about the JS collection operations -/

theorem mem_jsSetAdd {s : List String} {x a : String} :
    a ∈ jsSetAdd s x ↔ a ∈ s ∨ a = x := by
  unfold jsSetAdd
  split
  · rename_i hx
    constructor
    · exact Or.inl
    · rintro (h1 | rfl)
      · exact h1
      · exact hx
  · simp

theorem mem_foldl_jsSetAdd (l : List String) (s : List String) (a : String) :
    a ∈ List.foldl jsSetAdd s l ↔ a ∈ s ∨ a ∈ l := by
  induction l generalizing s with
  | nil => simp
  | cons x xs ih => simp [List.foldl_cons, ih, mem_jsSetAdd, or_assoc]

theorem jsMapGet_jsMapSet_self {α : Type} (m : List (String × α)) (k : String) (v : α) :
    jsMapGet (jsMapSet m k v) k = some v := by
  induction m with
  | nil => simp [jsMapSet, jsMapGet]
  | cons kv m ih =>
    obtain ⟨k1, v1⟩ := kv
    by_cases h : k1 = k
    · simp [jsMapSet, jsMapGet, h]
    · simp [jsMapSet, jsMapGet, h, ih]

theorem mem_jsMapSet {α : Type} {m : List (String × α)} {k0 : String} {v0 : α}
    {p : String × α} (h : p ∈ jsMapSet m k0 v0) : p = (k0, v0) ∨ p ∈ m := by
  revert h
  induction m with
  | nil =>
    intro h
    simpa [jsMapSet] using h
  | cons kv m ih =>
    obtain ⟨k1, v1⟩ := kv
    intro h
    by_cases hk : k1 = k0
    · simp only [jsMapSet, if_pos hk, List.mem_cons] at h
      rcases h with h | h
      · exact Or.inl h
      · exact Or.inr (List.mem_cons_of_mem _ h)
    · simp only [jsMapSet, if_neg hk, List.mem_cons] at h
      rcases h with h | h
      · exact Or.inr (by simp [h])
      · rcases ih h with h1 | h1
        · exact Or.inl h1
        · exact Or.inr (List.mem_cons_of_mem _ h1)

theorem mem_jsMapSetAll {α : Type} {l m : List (String × α)} {p : String × α}
    (h : p ∈ jsMapSetAll m l) : p ∈ l ∨ p ∈ m := by
  induction l generalizing m with
  | nil => exact Or.inr (by simpa [jsMapSetAll] using h)
  | cons kv l ih =>
    have h' : p ∈ jsMapSetAll (jsMapSet m kv.1 kv.2) l := by
      simpa [jsMapSetAll, List.foldl_cons] using h
    rcases ih h' with h1 | h1
    · exact Or.inl (List.mem_cons_of_mem _ h1)
    · rcases mem_jsMapSet h1 with h2 | h2
      · left
        rw [h2]
        exact List.mem_cons_self _ _
      · exact Or.inr h2

theorem filter_idem {α : Type} (p : α → Bool) (l : List α) :
    (l.filter p).filter p = l.filter p := by
  induction l with
  | nil => rfl
  | cons x xs ih =>
    by_cases h : p x <;> simp [List.filter_cons, h, ih]

/-! ### Frame lemmas for the four operations -/

theorem scan_pendingEmails (s : ScannerState) (r : ScanResult) (now : Nat) :
    (handleBarCodeScanned s r now).pendingEmails = s.pendingEmails := by
  unfold handleBarCodeScanned
  dsimp only
  repeat' split
  all_goals rfl

theorem scan_validatedEmails (s : ScannerState) (r : ScanResult) (now : Nat) :
    (handleBarCodeScanned s r now).validatedEmails = s.validatedEmails := by
  unfold handleBarCodeScanned
  dsimp only
  repeat' split
  all_goals rfl

theorem scan_overlays (s : ScannerState) (r : ScanResult) (now : Nat) :
    (handleBarCodeScanned s r now).overlays = s.overlays := by
  unfold handleBarCodeScanned
  dsimp only
  repeat' split
  all_goals rfl

theorem scan_submitted (s : ScannerState) (r : ScanResult) (now : Nat) :
    (handleBarCodeScanned s r now).submitted = s.submitted := by
  unfold handleBarCodeScanned
  dsimp only
  repeat' split
  all_goals rfl

/-- Any element of the pending buffer after a scan was already there, or is
the scanned payload and was neither validated nor pending. -/
theorem scan_pendingBuffer_mem {s : ScannerState} {r : ScanResult} {now : Nat}
    {a : String} (h : a ∈ (handleBarCodeScanned s r now).pendingBuffer) :
    a ∈ s.pendingBuffer ∨
      (a = extractEmail r.data ∧ a ∉ s.validatedEmails ∧ a ∉ s.pendingEmails) := by
  unfold handleBarCodeScanned at h
  dsimp only at h
  split at h
  · exact Or.inl h
  · split at h
    · exact Or.inl h
    · split at h
      · rename_i hcond
        simp only [Bool.and_eq_true, Bool.not_eq_true', decide_eq_false_iff_not] at hcond
        rcases (mem_jsSetAdd).1 h with h1 | rfl
        · exact Or.inl h1
        · exact Or.inr ⟨rfl, hcond.1, hcond.2⟩
      · exact Or.inl h

theorem flush_validatedEmails (s : ScannerState) (now : Nat) :
    (flushTick s now).validatedEmails = s.validatedEmails := rfl

theorem flush_submitted (s : ScannerState) (now : Nat) :
    (flushTick s now).submitted = s.submitted := rfl

theorem flush_pendingBuffer (s : ScannerState) (now : Nat) :
    (flushTick s now).pendingBuffer = [] := by
  show (if s.pendingBuffer.isEmpty then s.pendingBuffer else []) = []
  split
  · rename_i h
    exact List.isEmpty_iff.1 h
  · rfl

theorem flush_detectionBuffer (s : ScannerState) (now : Nat) :
    (flushTick s now).detectionBuffer = [] := by
  show (if s.detectionBuffer.isEmpty then s.detectionBuffer else []) = []
  split
  · rename_i h
    exact List.isEmpty_iff.1 h
  · rfl

theorem flush_pendingEmails_mem (s : ScannerState) (now : Nat) (a : String) :
    a ∈ (flushTick s now).pendingEmails ↔ a ∈ s.pendingEmails ∨ a ∈ s.pendingBuffer := by
  show a ∈ (if s.pendingBuffer.isEmpty then s.pendingEmails
      else List.foldl jsSetAdd s.pendingEmails s.pendingBuffer) ↔ _
  split
  · rename_i h
    rw [List.isEmpty_iff.1 h]
    simp
  · exact mem_foldl_jsSetAdd _ _ _

/-- Any overlay present after a flush tick is a value of the pre-flush
detection buffer, or a pre-flush overlay whose last-seen time is within the
TTL window at `now`. -/
theorem flush_overlays_mem {s : ScannerState} {now : Nat} {o : QROverlay}
    (h : o ∈ (flushTick s now).overlays) :
    (∃ kv ∈ s.detectionBuffer, kv.2 = o) ∨
      (o ∈ s.overlays ∧ (now : Int) - (OVERLAY_TTL_MS : Int) < (o.lastSeen : Int)) := by
  have hk : ∀ x ∈ s.overlays.filter
      (fun o => decide ((now : Int) - (OVERLAY_TTL_MS : Int) < (o.lastSeen : Int))),
      x ∈ s.overlays ∧ (now : Int) - (OVERLAY_TTL_MS : Int) < (x.lastSeen : Int) := by
    intro x hx
    have := List.mem_filter.1 hx
    exact ⟨this.1, by simpa using this.2⟩
  revert h
  show o ∈ (if s.detectionBuffer.isEmpty then _ else _) → _
  split
  · intro h
    exact Or.inr (hk o h)
  · intro h
    rcases List.mem_map.1 h with ⟨kv, hkv, rfl⟩
    rcases mem_jsMapSetAll hkv with h1 | h1
    · exact Or.inl ⟨kv, h1, rfl⟩
    · rcases mem_jsMapSetAll h1 with h2 | h2
      · rcases List.mem_map.1 h2 with ⟨x, hx, hxkv⟩
        have := hk x hx
        rw [← hxkv]
        exact Or.inr this
      · simp at h2

theorem clear_spec (s : ScannerState) :
    handleClearPending s =
      { s with pendingEmails := [] } := rfl

/-- `handleValidate` is the identity when the pending set is empty or a
validation is in flight. -/
theorem validate_noop {s : ScannerState}
    (h : s.pendingEmails = [] ∨ s.isValidating = true) : handleValidate s = s := by
  unfold handleValidate
  rcases h with h | h <;> simp [h]

/-- Guard form of `validate_noop`. -/
theorem validate_noop_of_guard {s : ScannerState}
    (hc : (s.pendingEmails.isEmpty || s.isValidating) = true) : handleValidate s = s := by
  unfold handleValidate
  simp [hc]

/-- Explicit form of `handleValidate` when the guard does not fire. -/
theorem validate_app {s : ScannerState}
    (hc : (s.pendingEmails.isEmpty || s.isValidating) = false) :
    handleValidate s =
      { s with
        validatedEmails := List.foldl jsSetAdd s.validatedEmails s.pendingEmails
        overlays :=
          s.overlays.map
            (fun o => { o with processed := decide (o.id ∈ s.pendingEmails) || o.processed })
        pendingEmails := []
        isValidating := false
        submitted := s.submitted ++ [s.pendingEmails] } := by
  unfold handleValidate
  simp [hc]

theorem validate_validatedEmails_mem (s : ScannerState) (a : String) :
    a ∈ (handleValidate s).validatedEmails ↔
      a ∈ s.validatedEmails ∨ (a ∈ s.pendingEmails ∧
        (s.pendingEmails.isEmpty || s.isValidating) = false) := by
  cases hc : (s.pendingEmails.isEmpty || s.isValidating) with
  | true =>
    rw [validate_noop_of_guard hc]
    simp
  | false =>
    rw [validate_app hc]
    show a ∈ List.foldl jsSetAdd s.validatedEmails s.pendingEmails ↔ _
    rw [mem_foldl_jsSetAdd]
    tauto

theorem validate_pendingBuffer (s : ScannerState) :
    (handleValidate s).pendingBuffer = s.pendingBuffer := by
  unfold handleValidate
  split <;> rfl

/-! ### The session invariant (claim C2) -/

theorem inv_init : Inv initState := by
  refine ⟨?_, ?_, ?_⟩ <;> intro e he <;> simp [initState] at he

theorem inv_step {s : ScannerState} (h : Inv s) (ev : Event) : Inv (step ev s) := by
  obtain ⟨h1, h2, h3⟩ := h
  cases ev with
  | scan r now =>
    simp only [step]
    refine ⟨?_, ?_, ?_⟩
    · intro e he
      rw [scan_validatedEmails] at he
      rw [scan_pendingEmails]
      exact h1 e he
    · intro e he hmem
      rw [scan_validatedEmails] at he
      rcases scan_pendingBuffer_mem hmem with hb | ⟨_, hnv, _⟩
      · exact h2 e he hb
      · exact hnv he
    · intro e he hmem
      rw [scan_pendingEmails] at he
      rcases scan_pendingBuffer_mem hmem with hb | ⟨_, _, hnp⟩
      · exact h3 e he hb
      · exact hnp he
  | flush now =>
    simp only [step]
    refine ⟨?_, ?_, ?_⟩
    · intro e he hmem
      rw [flush_validatedEmails] at he
      rcases (flush_pendingEmails_mem s now e).1 hmem with hp | hb
      · exact h1 e he hp
      · exact h2 e he hb
    · intro e _ hmem
      rw [flush_pendingBuffer] at hmem
      simp at hmem
    · intro e _ hmem
      rw [flush_pendingBuffer] at hmem
      simp at hmem
  | validate =>
    simp only [step]
    cases hc : (s.pendingEmails.isEmpty || s.isValidating) with
    | true =>
      rw [validate_noop_of_guard hc]
      exact ⟨h1, h2, h3⟩
    | false =>
      rw [validate_app hc]
      refine ⟨?_, ?_, ?_⟩
      · intro e _ hmem
        simp at hmem
      · intro e he hmem
        rcases (mem_foldl_jsSetAdd s.pendingEmails s.validatedEmails e).1 he with hv | hp
        · exact h2 e hv hmem
        · exact h3 e hp hmem
      · intro e hmem
        simp at hmem
  | clear =>
    simp only [step]
    refine ⟨?_, ?_, ?_⟩
    · intro e _ hmem
      simp [handleClearPending] at hmem
    · intro e he hmem
      exact h2 e he hmem
    · intro e hmem
      simp [handleClearPending] at hmem

theorem inv_runFrom {s : ScannerState} (h : Inv s) (es : List Event) :
    Inv (runFrom s es) := by
  induction es generalizing s with
  | nil => exact h
  | cons e es ih => exact ih (inv_step h e)

theorem inv_run (es : List Event) : Inv (run es) :=
  inv_runFrom inv_init es

/-- The validated set only grows, at every step. -/
theorem validated_mono_step (s : ScannerState) (ev : Event) {a : String}
    (h : a ∈ s.validatedEmails) : a ∈ (step ev s).validatedEmails := by
  cases ev with
  | scan r now =>
    simp only [step, scan_validatedEmails]
    exact h
  | flush now =>
    simp only [step, flush_validatedEmails]
    exact h
  | validate =>
    simp only [step]
    exact (validate_validatedEmails_mem s a).2 (Or.inl h)
  | clear =>
    simp only [step]
    exact h

theorem validated_mono_runFrom (s : ScannerState) (es : List Event) {a : String}
    (h : a ∈ s.validatedEmails) : a ∈ (runFrom s es).validatedEmails := by
  induction es generalizing s with
  | nil => exact h
  | cons e es ih => exact ih _ (validated_mono_step s e h)

theorem runFrom_append (s : ScannerState) (es es' : List Event) :
    runFrom s (es ++ es') = runFrom (runFrom s es) es' := by
  induction es generalizing s with
  | nil => rfl
  | cons e es ih => simp [runFrom, ih]

/-! ### Claim theorems -/

/-- C2: in every state reachable from the initial empty state by any
sequence of scan-callback invocations, flush ticks, Validate invocations
and Clear invocations, no payload is simultaneously in the validated set
and in the pending set; moreover, along any continuation of the session, a
payload once validated stays validated and never re-enters the pending
set. -/
theorem C2_validated_pending_disjoint_and_monotone (es : List Event) :
    (∀ e ∈ (run es).validatedEmails, e ∉ (run es).pendingEmails) ∧
    (∀ es' : List Event, ∀ e ∈ (run es).validatedEmails,
      e ∈ (run (es ++ es')).validatedEmails ∧
      e ∉ (run (es ++ es')).pendingEmails) := by
  refine ⟨(inv_run es).1, ?_⟩
  intro es' e he
  have hrun : run (es ++ es') = runFrom (run es) es' := runFrom_append initState es es'
  rw [hrun]
  have hv := validated_mono_runFrom (run es) es' he
  exact ⟨hv, (inv_runFrom (inv_run es) es').1 e hv⟩

/-- Witness for C2: a session that scans, flushes and validates `a@x.eu`,
then clears — the payload stays validated and is not pending. -/
theorem C2_validated_pending_disjoint_and_monotone_witness :
    "a@x.eu" ∈ (run ([Event.scan rAx 1000, Event.flush 1400, Event.validate]
        ++ [Event.clear])).validatedEmails ∧
    "a@x.eu" ∉ (run ([Event.scan rAx 1000, Event.flush 1400, Event.validate]
        ++ [Event.clear])).pendingEmails :=
  (C2_validated_pending_disjoint_and_monotone
      [Event.scan rAx 1000, Event.flush 1400, Event.validate]).2
    [Event.clear] "a@x.eu" (by decide)

/-- C5 (amended): after a flush tick at time `now`, every overlay whose
last-seen time precedes `now − TTL` and that did not come from the
detection buffer being merged at that tick is absent; in particular, when
the detection buffer is empty, every surviving overlay is within the TTL
window.  (The unamended claim fails because entries of a non-empty
detection buffer are merged into the overlay collection unconditionally,
even when already staler than the TTL.) -/
theorem C5_flush_prunes_stale (s : ScannerState) (now : Nat) :
    (∀ o ∈ (flushTick s now).overlays,
      (o.lastSeen : Int) < (now : Int) - (OVERLAY_TTL_MS : Int) →
        ∃ kv ∈ s.detectionBuffer, kv.2 = o) ∧
    (s.detectionBuffer = [] →
      ∀ o ∈ (flushTick s now).overlays,
        ¬ ((o.lastSeen : Int) < (now : Int) - (OVERLAY_TTL_MS : Int))) := by
  constructor
  · intro o ho hstale
    rcases flush_overlays_mem ho with h | ⟨_, hfresh⟩
    · exact h
    · omega
  · intro hbuf o ho hstale
    rcases flush_overlays_mem ho with ⟨kv, hkv, _⟩ | ⟨_, hfresh⟩
    · rw [hbuf] at hkv
      simp at hkv
    · omega

/-- Witness for C5: flushing a state with an empty detection buffer, one
fresh and one stale overlay keeps the fresh overlay, and no kept overlay is
stale. -/
theorem C5_flush_prunes_stale_witness :
    sFlushDemo.detectionBuffer = [] ∧
    (⟨"f@x.eu", "f@x.eu", ⟨1, 1, 2, 2⟩, 4000, false⟩ : QROverlay)
      ∈ (flushTick sFlushDemo 5000).overlays ∧
    ¬ (((⟨"f@x.eu", "f@x.eu", ⟨1, 1, 2, 2⟩, 4000, false⟩ : QROverlay).lastSeen : Int)
        < (5000 : Int) - (OVERLAY_TTL_MS : Int)) :=
  ⟨rfl, by decide,
    (C5_flush_prunes_stale sFlushDemo 5000).2 rfl _ (by decide)⟩

/-- Counterexample for C5 as stated: a detection of `p` at t = 100 followed
by a flush tick at t = 5000 leaves an overlay whose last-seen time 100
precedes 5000 − TTL = 3000 in the overlay collection, because the flush
merges the (stale) detection-buffer entry in unconditionally. -/
theorem C5_flush_prunes_stale_counterexample :
    (run [Event.scan (rP 10) 100, Event.flush 5000]).overlays =
      [{ id := "p", text := "p", bounds := ⟨10, 0, 4, 4⟩,
         lastSeen := 100, processed := false }] ∧
    ((100 : Int) < (5000 : Int) - (OVERLAY_TTL_MS : Int)) := by
  constructor
  · decide
  · decide

/-- C10 (implicit): the clear trigger does not drain the pending buffer —
it only empties the pending set — so a payload detected before Clear but
not yet flushed re-enters the pending set at the next flush tick with no
new detection after the Clear. -/
theorem C10_clear_keeps_pending_buffer (s : ScannerState) (now : Nat) (p : String)
    (hp : p ∈ s.pendingBuffer) :
    (handleClearPending s).pendingEmails = [] ∧
    (handleClearPending s).pendingBuffer = s.pendingBuffer ∧
    p ∈ (flushTick (handleClearPending s) now).pendingEmails := by
  refine ⟨rfl, rfl, ?_⟩
  rw [flush_pendingEmails_mem]
  exact Or.inr hp

/-- Witness for C10: `a@x.eu` sits in the pending buffer; after Clear and a
flush tick it is pending again. -/
theorem C10_clear_keeps_pending_buffer_witness :
    (handleClearPending sBufferDemo).pendingEmails = [] ∧
    (handleClearPending sBufferDemo).pendingBuffer = sBufferDemo.pendingBuffer ∧
    "a@x.eu" ∈ (flushTick (handleClearPending sBufferDemo) 100).pendingEmails :=
  C10_clear_keeps_pending_buffer sBufferDemo 100 "a@x.eu" (by decide)

/-- C1: with a non-empty pending set and no validation in flight, the
validation trigger makes the validated set a superset of the pending set,
empties the pending set, invokes the submission collaborator exactly once
with the list of exactly the pending payloads, and marks every overlay
whose payload was pending as processed; with an empty pending set or a
validation in flight it is a no-op. -/
theorem C1_validation_trigger (s : ScannerState)
    (hne : s.pendingEmails ≠ []) (hv : s.isValidating = false) :
    (∀ e ∈ s.pendingEmails, e ∈ (handleValidate s).validatedEmails) ∧
    (handleValidate s).pendingEmails = [] ∧
    (handleValidate s).submitted = s.submitted ++ [s.pendingEmails] ∧
    (∀ o ∈ (handleValidate s).overlays, o.id ∈ s.pendingEmails → o.processed = true) ∧
    (∀ t : ScannerState, t.pendingEmails = [] ∨ t.isValidating = true →
      handleValidate t = t) := by
  have hc : (s.pendingEmails.isEmpty || s.isValidating) = false := by
    simp [hv, List.isEmpty_iff, hne]
  rw [validate_app hc]
  refine ⟨?_, rfl, rfl, ?_, fun t ht => validate_noop ht⟩
  · intro e he
    exact (mem_foldl_jsSetAdd _ _ _).2 (Or.inr he)
  · intro o ho hid
    rcases List.mem_map.1 ho with ⟨o0, _, rfl⟩
    simp only at hid
    simp [hid]

/-- Witness for C1: validating the pending set `[a@x.eu, b@x.eu]` validates
both, empties the pending set, logs one submission with exactly those
payloads, and marks the matching overlay processed. -/
theorem C1_validation_trigger_witness :
    "a@x.eu" ∈ (handleValidate sValidateDemo).validatedEmails ∧
    "b@x.eu" ∈ (handleValidate sValidateDemo).validatedEmails ∧
    (handleValidate sValidateDemo).pendingEmails = [] ∧
    (handleValidate sValidateDemo).submitted = [["a@x.eu", "b@x.eu"]] ∧
    (∀ o ∈ (handleValidate sValidateDemo).overlays,
        o.id ∈ sValidateDemo.pendingEmails → o.processed = true) := by
  have h := C1_validation_trigger sValidateDemo (by decide) rfl
  refine ⟨h.1 _ (by decide), h.1 _ (by decide), h.2.1, ?_, h.2.2.2.1⟩
  rw [h.2.2.1]
  rfl

/-- Explicit form of a flush tick when both buffers are empty: overlays are
pruned to the TTL window and the dedup map is pruned when oversized. -/
theorem flushTick_empty_eq {s : ScannerState} {now : Nat}
    (h1 : s.detectionBuffer = []) (h2 : s.pendingBuffer = []) :
    flushTick s now =
      { s with
        overlays := s.overlays.filter
          (fun o => decide ((now : Int) - (OVERLAY_TTL_MS : Int) < (o.lastSeen : Int)))
        lastSeenMap :=
          if 50 < s.lastSeenMap.length then
            s.lastSeenMap.filter
              (fun kt => !(decide ((kt.2 : Int) < (now : Int) - (OVERLAY_TTL_MS : Int))))
          else s.lastSeenMap } := by
  unfold flushTick
  rw [h1, h2]
  rfl

/-- C8: running the flush cycle twice in immediate succession (same current
time) with both the detection buffer and the pending buffer empty changes
nothing on the second run. -/
theorem C8_flush_idempotent_on_empty_buffers (s : ScannerState) (now : Nat)
    (h1 : s.detectionBuffer = []) (h2 : s.pendingBuffer = []) :
    flushTick (flushTick s now) now = flushTick s now := by
  have hdb : (flushTick s now).detectionBuffer = [] := flush_detectionBuffer s now
  have hpb : (flushTick s now).pendingBuffer = [] := flush_pendingBuffer s now
  rw [flushTick_empty_eq hdb hpb, flushTick_empty_eq h1 h2]
  dsimp only
  simp only [ScannerState.mk.injEq, and_true, true_and]
  refine ⟨filter_idem _ _, ?_⟩
  by_cases hlen : 50 < s.lastSeenMap.length
  · simp only [if_pos hlen]
    by_cases hlen2 : 50 < (s.lastSeenMap.filter
        (fun kt => !(decide ((kt.2 : Int) < (now : Int) - (OVERLAY_TTL_MS : Int))))).length
    · simp only [if_pos hlen2]
      exact filter_idem _ _
    · simp only [if_neg hlen2]
  · simp only [if_neg hlen]

/-- Witness for C8: a second flush of a buffer-empty state with overlays is
the identity. -/
theorem C8_flush_idempotent_on_empty_buffers_witness :
    sFlushDemo.detectionBuffer = [] ∧ sFlushDemo.pendingBuffer = [] ∧
    flushTick (flushTick sFlushDemo 4200) 4200 = flushTick sFlushDemo 4200 :=
  ⟨rfl, rfl, C8_flush_idempotent_on_empty_buffers sFlushDemo 4200 rfl rfl⟩

/-- A suppressed scan (dedup hit, active camera) is a no-op. -/
theorem scan_noop_suppressed {s : ScannerState} {r : ScanResult} {now : Nat}
    (ha : s.isActive = true) (hv : s.isValidating = false)
    (hsup : dedupSuppressed s.lastSeenMap (extractEmail r.data) now = true) :
    handleBarCodeScanned s r now = s := by
  unfold handleBarCodeScanned
  rw [if_neg (show ¬((!s.isActive || s.isValidating) = true) by simp [ha, hv])]
  dsimp only
  rw [if_pos hsup]

/-- A processed (non-suppressed) scan records the current time in the dedup
map and overwrites the detection-buffer entry for the payload. -/
theorem scan_processed_maps {s : ScannerState} {r : ScanResult} {now : Nat}
    (ha : s.isActive = true) (hv : s.isValidating = false)
    (hsup : dedupSuppressed s.lastSeenMap (extractEmail r.data) now = false) :
    (handleBarCodeScanned s r now).lastSeenMap =
      jsMapSet s.lastSeenMap (extractEmail r.data) now ∧
    (handleBarCodeScanned s r now).detectionBuffer =
      jsMapSet s.detectionBuffer (extractEmail r.data)
        { id := extractEmail r.data, text := extractEmail r.data,
          bounds := scanBounds r, lastSeen := now,
          processed := decide (extractEmail r.data ∈ s.validatedEmails) } := by
  unfold handleBarCodeScanned
  rw [if_neg (show ¬((!s.isActive || s.isValidating) = true) by simp [ha, hv])]
  dsimp only
  rw [if_neg (show ¬(dedupSuppressed s.lastSeenMap (extractEmail r.data) now = true)
    by simp [hsup])]
  split
  · exact ⟨rfl, rfl⟩
  · exact ⟨rfl, rfl⟩

/-- A scan of an already-validated payload never touches the pending
buffer. -/
theorem scan_pendingBuffer_validated {s : ScannerState} {r : ScanResult} {now : Nat}
    (hval : extractEmail r.data ∈ s.validatedEmails) :
    (handleBarCodeScanned s r now).pendingBuffer = s.pendingBuffer := by
  unfold handleBarCodeScanned
  dsimp only
  repeat' split
  all_goals
    first
    | rfl
    | (rename_i hcond
       exfalso
       simp only [Bool.and_eq_true, Bool.not_eq_true', decide_eq_false_iff_not] at hcond
       exact hcond.1 hval)

/-- A processed scan of a payload that is neither validated nor pending adds
it to the pending buffer. -/
theorem scan_pendingBuffer_app {s : ScannerState} {r : ScanResult} {now : Nat}
    (ha : s.isActive = true) (hv : s.isValidating = false)
    (hsup : dedupSuppressed s.lastSeenMap (extractEmail r.data) now = false)
    (hnv : extractEmail r.data ∉ s.validatedEmails)
    (hnp : extractEmail r.data ∉ s.pendingEmails) :
    (handleBarCodeScanned s r now).pendingBuffer =
      jsSetAdd s.pendingBuffer (extractEmail r.data) := by
  unfold handleBarCodeScanned
  rw [if_neg (show ¬((!s.isActive || s.isValidating) = true) by simp [ha, hv])]
  dsimp only
  rw [if_neg (show ¬(dedupSuppressed s.lastSeenMap (extractEmail r.data) now = true)
    by simp [hsup])]
  rw [if_pos (show (!decide (extractEmail r.data ∈ s.validatedEmails)
      && !decide (extractEmail r.data ∈ s.pendingEmails)) = true by simp [hnv, hnp])]

/-- C3 (amended): for a payload whose recorded dedup timestamp `t1` is
nonzero (the JS truthiness check `if (prev && ...)` treats a recorded
timestamp of `0` as absent), a scan at `now` with `now − t1` below the
dedup window leaves the detection buffer, the pending buffer and the dedup
entry exactly as they were, while a scan with `now − t1` at least the
window records the new timestamp and is processed (its detection-buffer
entry is overwritten with fresh bounds and timestamp). -/
theorem C3_dedup_window_behavior (s : ScannerState) (r : ScanResult) (now t1 : Nat)
    (ha : s.isActive = true) (hv : s.isValidating = false)
    (hmap : jsMapGet s.lastSeenMap (extractEmail r.data) = some t1) (h0 : t1 ≠ 0) :
    ((now : Int) - (t1 : Int) < (DEDUP_WINDOW_MS : Int) →
      (handleBarCodeScanned s r now).detectionBuffer = s.detectionBuffer ∧
      (handleBarCodeScanned s r now).pendingBuffer = s.pendingBuffer ∧
      jsMapGet (handleBarCodeScanned s r now).lastSeenMap (extractEmail r.data) = some t1) ∧
    ((DEDUP_WINDOW_MS : Int) ≤ (now : Int) - (t1 : Int) →
      jsMapGet (handleBarCodeScanned s r now).lastSeenMap (extractEmail r.data) = some now ∧
      jsMapGet (handleBarCodeScanned s r now).detectionBuffer (extractEmail r.data) =
        some { id := extractEmail r.data, text := extractEmail r.data,
               bounds := scanBounds r, lastSeen := now,
               processed := decide (extractEmail r.data ∈ s.validatedEmails) }) := by
  constructor
  · intro hlt
    have hsup : dedupSuppressed s.lastSeenMap (extractEmail r.data) now = true := by
      unfold dedupSuppressed
      rw [hmap]
      simp [h0, hlt]
    rw [scan_noop_suppressed ha hv hsup]
    exact ⟨rfl, rfl, hmap⟩
  · intro hge
    have hsup : dedupSuppressed s.lastSeenMap (extractEmail r.data) now = false := by
      unfold dedupSuppressed
      rw [hmap]
      simp [h0]
      omega
    have h := scan_processed_maps ha hv hsup
    rw [h.1, h.2, jsMapGet_jsMapSet_self, jsMapGet_jsMapSet_self]
    exact ⟨rfl, rfl⟩

/-- Witness for C3 (amended): with the dedup entry for `p` recorded at
t = 1000, a rescan at t = 1100 changes nothing and keeps the entry, while a
rescan at t = 1400 records 1400. -/
theorem C3_dedup_window_behavior_witness :
    (handleBarCodeScanned sDedupDemo (rP 10) 1100).detectionBuffer
        = sDedupDemo.detectionBuffer ∧
    jsMapGet (handleBarCodeScanned sDedupDemo (rP 10) 1100).lastSeenMap
        (extractEmail (rP 10).data) = some 1000 ∧
    jsMapGet (handleBarCodeScanned sDedupDemo (rP 20) 1400).lastSeenMap
        (extractEmail (rP 20).data) = some 1400 := by
  have h1 := C3_dedup_window_behavior sDedupDemo (rP 10) 1100 1000 rfl rfl
    (by decide) (by decide)
  have h2 := C3_dedup_window_behavior sDedupDemo (rP 20) 1400 1000 rfl rfl
    (by decide) (by decide)
  exact ⟨(h1.1 (by decide)).1, (h1.1 (by decide)).2.2, (h2.2 (by decide)).1⟩

/-- Counterexample for C3 as stated: a first scan of `p` at t1 = 0 is
processed and records timestamp 0; a second scan at t2 = 100 < dedup window
is nevertheless processed again — the recorded 0 is falsy for the JS check
`if (prev && now - prev < DEDUP_WINDOW_MS)` — so the dedup entry and the
detection buffer change. -/
theorem C3_dedup_zero_timestamp_counterexample :
    jsMapGet (handleBarCodeScanned initState (rP 10) 0).lastSeenMap "p" = some 0 ∧
    ((100 : Int) - (0 : Int) < (DEDUP_WINDOW_MS : Int)) ∧
    jsMapGet (handleBarCodeScanned
        (handleBarCodeScanned initState (rP 10) 0) (rP 20) 100).lastSeenMap "p"
      = some 100 ∧
    jsMapGet (handleBarCodeScanned
        (handleBarCodeScanned initState (rP 10) 0) (rP 20) 100).detectionBuffer "p"
      ≠ jsMapGet (handleBarCodeScanned initState (rP 10) 0).detectionBuffer "p" := by
  refine ⟨by decide, by decide, by decide, by decide⟩

/-- C4: a non-deduplicated scan of an already-validated payload overwrites
its detection-buffer entry with fresh bounds and timestamp and the
processed flag set, and touches neither the pending buffer nor the pending
set — so the payload cannot re-enter the pending set. -/
theorem C4_validated_rescan (s : ScannerState) (r : ScanResult) (now : Nat)
    (ha : s.isActive = true) (hv : s.isValidating = false)
    (hval : extractEmail r.data ∈ s.validatedEmails)
    (hsup : dedupSuppressed s.lastSeenMap (extractEmail r.data) now = false) :
    jsMapGet (handleBarCodeScanned s r now).detectionBuffer (extractEmail r.data) =
      some { id := extractEmail r.data, text := extractEmail r.data,
             bounds := scanBounds r, lastSeen := now, processed := true } ∧
    (handleBarCodeScanned s r now).pendingBuffer = s.pendingBuffer ∧
    (handleBarCodeScanned s r now).pendingEmails = s.pendingEmails := by
  refine ⟨?_, scan_pendingBuffer_validated hval, scan_pendingEmails s r now⟩
  rw [(scan_processed_maps ha hv hsup).2, jsMapGet_jsMapSet_self]
  simp [hval]

/-- Witness for C4: rescanning the validated `a@x.eu` yields a processed
detection-buffer entry and leaves pending state and buffer empty. -/
theorem C4_validated_rescan_witness :
    jsMapGet (handleBarCodeScanned sValidatedDemo rAx 5000).detectionBuffer
        (extractEmail rAx.data) =
      some { id := extractEmail rAx.data, text := extractEmail rAx.data,
             bounds := scanBounds rAx, lastSeen := 5000, processed := true } ∧
    (handleBarCodeScanned sValidatedDemo rAx 5000).pendingBuffer
        = sValidatedDemo.pendingBuffer ∧
    (handleBarCodeScanned sValidatedDemo rAx 5000).pendingEmails
        = sValidatedDemo.pendingEmails :=
  C4_validated_rescan sValidatedDemo rAx 5000 rfl rfl (by decide) (by decide)

/-- C7: the clear trigger empties the pending set and leaves the dedup map,
the detection buffer, the validated set and the overlay collection
unchanged; a later non-deduplicated detection of a cleared, non-validated
payload re-adds it to the pending set (at the next flush tick). -/
theorem C7_clear_frame_and_rescan (s : ScannerState) (r : ScanResult) (now now2 : Nat) :
    (handleClearPending s).pendingEmails = [] ∧
    (handleClearPending s).lastSeenMap = s.lastSeenMap ∧
    (handleClearPending s).detectionBuffer = s.detectionBuffer ∧
    (handleClearPending s).validatedEmails = s.validatedEmails ∧
    (handleClearPending s).overlays = s.overlays ∧
    (s.isActive = true → s.isValidating = false →
      extractEmail r.data ∉ s.validatedEmails →
      dedupSuppressed s.lastSeenMap (extractEmail r.data) now = false →
      extractEmail r.data ∈
        (flushTick (handleBarCodeScanned (handleClearPending s) r now) now2).pendingEmails) := by
  refine ⟨rfl, rfl, rfl, rfl, rfl, ?_⟩
  intro ha hv hnv hsup
  rw [flush_pendingEmails_mem]
  right
  rw [scan_pendingBuffer_app (s := handleClearPending s) ha hv hsup hnv
    (by simp [handleClearPending])]
  exact (mem_jsSetAdd).2 (Or.inr rfl)

/-- Witness for C7: `a@x.eu` pending with dedup entry at t = 1000; after
Clear, a rescan at t = 1400 (past the window) followed by a flush makes it
pending again, while Clear itself changed only the pending set. -/
theorem C7_clear_frame_and_rescan_witness :
    (handleClearPending sClearDemo).pendingEmails = [] ∧
    (handleClearPending sClearDemo).lastSeenMap = sClearDemo.lastSeenMap ∧
    (handleClearPending sClearDemo).validatedEmails = sClearDemo.validatedEmails ∧
    "a@x.eu" ∈ (flushTick
        (handleBarCodeScanned (handleClearPending sClearDemo) rAx 1400) 1500).pendingEmails := by
  have h := C7_clear_frame_and_rescan sClearDemo rAx 1400 1500
  exact ⟨h.1, h.2.1, h.2.2.2.1, h.2.2.2.2.2 rfl rfl (by decide) (by decide)⟩

/-- C6 (amended): with detections of `x@epitech.eu` at t = 0, t = 100 and
t = 250 and a dedup window of 300 ms, only the t = 0 detection changes the
pending buffer; the t = 100 detection is processed again (the recorded
timestamp 0 is treated as absent by the dedup check) and the t = 250
detection is suppressed (250 − 100 < 300), so after the next flush tick the
overlay bounds reflect the t = 100 position (last write wins among the
processed detections). -/
theorem C6_dedup_scenario :
    (run [Event.scan (rEp 10) 0]).pendingBuffer = ["x@epitech.eu"] ∧
    (run [Event.scan (rEp 10) 0, Event.scan (rEp 20) 100]).pendingBuffer
      = ["x@epitech.eu"] ∧
    (run [Event.scan (rEp 10) 0, Event.scan (rEp 20) 100,
          Event.scan (rEp 30) 250]).pendingBuffer = ["x@epitech.eu"] ∧
    (run [Event.scan (rEp 10) 0, Event.scan (rEp 20) 100, Event.scan (rEp 30) 250,
          Event.flush 400]).overlays =
      [{ id := "x@epitech.eu", text := "x@epitech.eu", bounds := ⟨20, 20, 5, 5⟩,
         lastSeen := 100, processed := false }] ∧
    (run [Event.scan (rEp 10) 0, Event.scan (rEp 20) 100, Event.scan (rEp 30) 250,
          Event.flush 400]).pendingEmails = ["x@epitech.eu"] := by
  refine ⟨by decide, by decide, by decide, by decide, by decide⟩

/-- Counterexample for C6 as stated: after the t = 0, t = 100, t = 250
detections (carrying x-positions 10, 20, 30) and a flush, the single
overlay carries the t = 100 bounds, not the t = 250 bounds claimed by the
scenario. -/
theorem C6_last_write_counterexample :
    (run [Event.scan (rEp 10) 0, Event.scan (rEp 20) 100, Event.scan (rEp 30) 250,
          Event.flush 400]).overlays.map (fun o => o.bounds) = [⟨20, 20, 5, 5⟩] ∧
    scanBounds (rEp 30) = ⟨30, 30, 5, 5⟩ ∧
    (⟨20, 20, 5, 5⟩ : Bounds) ≠ ⟨30, 30, 5, 5⟩ := by
  refine ⟨by decide, rfl, by decide⟩

/-- C9 (amended): payload extraction is total: if the structured parse
fails, the raw decoded string is the payload; if it succeeds with a truthy
`email` field, that field is the payload; otherwise a truthy `Email` field
is the payload; otherwise the raw string (a falsy field — e.g. an
empty-string `email` — falls through, see the counterexample).  Missing
bounding-region fields default to a zero-sized region, and zero-width or
zero-height overlays are filtered out at render time rather than raising an
error. -/
theorem C9_extraction_total_and_defaults (d : String) :
    (jsonParse d = none → extractEmail d = d) ∧
    (∀ j v, jsonParse d = some j → jsTruthyField j "email" = some v →
      extractEmail d = jsDisplay v) ∧
    (∀ j v, jsonParse d = some j → jsTruthyField j "email" = none →
      jsTruthyField j "Email" = some v → extractEmail d = jsDisplay v) ∧
    (∀ j, jsonParse d = some j → jsTruthyField j "email" = none →
      jsTruthyField j "Email" = none → extractEmail d = d) ∧
    scanBounds { data := d, boundsX := none, boundsY := none,
                 boundsW := none, boundsH := none } =
      { x := 0, y := 0, width := 0, height := 0 } ∧
    (∀ os : List QROverlay, ∀ o ∈ os,
      o.bounds.width = 0 ∨ o.bounds.height = 0 → o ∉ renderedOverlays os) := by
  refine ⟨?_, ?_, ?_, ?_, rfl, ?_⟩
  · intro h
    unfold extractEmail
    rw [h]
  · intro j v hj hv
    unfold extractEmail
    rw [hj]
    dsimp only
    rw [hv]
  · intro j v hj hv hV
    unfold extractEmail
    rw [hj]
    dsimp only
    rw [hv]
    dsimp only
    rw [hV]
  · intro j hj hv hV
    unfold extractEmail
    rw [hj]
    dsimp only
    rw [hv]
    dsimp only
    rw [hV]
  · intro os o _ hzero hmem
    unfold renderedOverlays at hmem
    have hq := List.mem_filter.1 hmem
    rcases hzero with h | h <;> simp [h] at hq

/-- Witness for C9 (amended): a non-JSON string falls back to itself, a
truthy `email` field is extracted, a falsy `email` falls through to a
truthy `Email`, and a zero-sized overlay is not rendered. -/
theorem C9_extraction_total_and_defaults_witness :
    extractEmail "notjson" = "notjson" ∧
    extractEmail "\x7b\"email\":\"a@b.c\"\x7d" = "a@b.c" ∧
    extractEmail "\x7b\"email\":0,\"Email\":\"z@q.r\"\x7d" = "z@q.r" ∧
    oZero ∉ renderedOverlays [oZero] := by
  refine ⟨(C9_extraction_total_and_defaults "notjson").1 rfl, ?_, ?_, ?_⟩
  · exact (C9_extraction_total_and_defaults _).2.1
      (Json.obj [("email", Json.str "a@b.c")]) (Json.str "a@b.c") (by rfl) (by rfl)
  · exact (C9_extraction_total_and_defaults _).2.2.1
      (Json.obj [("email", Json.num "0"), ("Email", Json.str "z@q.r")])
      (Json.str "z@q.r") (by rfl) (by rfl) (by rfl)
  · exact (C9_extraction_total_and_defaults "").2.2.2.2.2 [oZero] oZero
      (List.mem_singleton.2 rfl) (Or.inl rfl)

/-- Counterexample for C9 as stated: `\x7b"email":""\x7d` parses as
structured data containing an `email` field, yet the payload is the raw
decoded string, not that field — the empty string is falsy in the
`parsed.email || parsed.Email || data` chain. -/
theorem C9_empty_email_field_counterexample :
    parsedFieldIsPresent "\x7b\"email\":\"\"\x7d" "email" = true ∧
    extractEmail "\x7b\"email\":\"\"\x7d" = "\x7b\"email\":\"\"\x7d" ∧
    extractEmail "\x7b\"email\":\"\"\x7d" ≠ "" := by
  refine ⟨rfl, rfl, by decide⟩

end Epicheck
